import Mathlib

/-!
Verification development for the TYPETONESENSE typing-speed / stress analyzer.

The definitions below are a shallow embedding of the repository's Python
sources (`face_analyzer.py`, `app.py`).  Pixel intensities and all float
arithmetic are idealized as exact rationals (`ℚ`); NumPy's `np.std` (a float
square root, irrational in general) is modeled by an abstract nonnegative
function supplied by the environment.  The OpenCV cascade detector is an
opaque oracle: a function from a (scaleFactor, minNeighbors) configuration to
the list of candidate rectangles it reports, in its own output order.
-/

/-- `EmotionLabel` from face_analyzer.py: the closed set of labels, in the
declaration order of the Python enum (which is also the iteration order of
any dict keyed by the full enum). -/
inductive EmotionLabel where
  | Happy | Sad | Tired | Angry | Nervous | Stressed
  | Calm | Chill | Focused | Normal | Unknown
  deriving DecidableEq, Repr

open EmotionLabel

/-- The Python enum declaration order: iteration order of
`{emotion: 0.0 for emotion in EmotionLabel}`. -/
def labelOrder : List EmotionLabel :=
  [Happy, Sad, Tired, Angry, Nervous, Stressed, Calm, Chill, Focused, Normal, Unknown]

/-- A detected face rectangle `(x, y, w, h)` as returned by
`detectMultiScale`. -/
structure FaceRect where
  x : ℕ
  y : ℕ
  w : ℕ
  h : ℕ
  deriving DecidableEq, Repr

/-- Area key used by `max(faces, key=lambda f: f[2] * f[3])`. -/
def FaceRect.area (r : FaceRect) : ℕ := r.w * r.h

/-- The nine (scaleFactor, minNeighbors) configurations of
`FaceAnalyzer.detect_face`, in the order of the two nested loops
`for scale in [1.1, 1.2, 1.3]: for min_neighbors in [3, 4, 5]:`. -/
def detectConfigs : List (ℚ × ℕ) :=
  [(11/10, 3), (11/10, 4), (11/10, 5),
   (12/10, 3), (12/10, 4), (12/10, 5),
   (13/10, 3), (13/10, 4), (13/10, 5)]

/-- `FaceAnalyzer.detect_face`.  `det c` is the cascade's candidate list for
configuration `c` (a configuration whose `detectMultiScale` call raises is
caught by the per-pair `except: continue` and contributes nothing, i.e. the
empty list).  The loop has no break: every configuration's candidates are
accumulated into `faces` via `faces.extend(detected)`.  Python's
`max(faces, key=area)` returns the first element attaining the maximal key,
which is exactly `List.argmax`. -/
def detect_face (loaded : Bool) (det : ℚ × ℕ → List FaceRect) : Option FaceRect :=
  if !loaded then none
  else
    let faces := detectConfigs.foldl (fun acc c => acc ++ det c) []
    if faces.isEmpty then none
    else faces.argmax FaceRect.area

/-- All candidates accumulated by `detect_face`, in encounter order. -/
def allCandidates (det : ℚ × ℕ → List FaceRect) : List FaceRect :=
  detectConfigs.foldl (fun acc c => acc ++ det c) []

/-- `FacialMetrics` from face_analyzer.py: five per-frame statistics.  The
`*_variance` fields hold, as in the source, the *standard deviations*
(`np.std`) of the two bands. -/
structure FacialMetrics where
  eye_intensity : ℚ
  mouth_intensity : ℚ
  eye_variance : ℚ
  mouth_variance : ℚ
  face_mean : ℚ
  deriving DecidableEq, Repr

/-- `variance_threshold = metrics.face_mean * 0.2`. -/
def varianceThreshold (m : FacialMetrics) : ℚ := m.face_mean * (2/10)

/-- Rule 1 — Happy: bright mouth and high mouth variance
(`scores[HAPPY] = 2.0`). -/
def rule1 (m : FacialMetrics) (s : EmotionLabel → ℚ) : EmotionLabel → ℚ :=
  if m.mouth_intensity > m.face_mean * (102/100) ∧ m.mouth_variance > varianceThreshold m
  then fun l => if l = Happy then 2 else s l else s

/-- Rule 2 — Sad/Tired: low intensities (`= 1.5` each). -/
def rule2 (m : FacialMetrics) (s : EmotionLabel → ℚ) : EmotionLabel → ℚ :=
  if m.mouth_intensity < m.face_mean * (85/100) ∧ m.eye_intensity < m.face_mean * (9/10)
  then fun l => if l = Sad then 3/2 else if l = Tired then 3/2 else s l else s

/-- Rule 3 — Nervous: both variances high (`= 2.0`). -/
def rule3 (m : FacialMetrics) (s : EmotionLabel → ℚ) : EmotionLabel → ℚ :=
  if m.eye_variance > varianceThreshold m ∧ m.mouth_variance > varianceThreshold m
  then fun l => if l = Nervous then 2 else s l else s

/-- Rule 4 — Stressed/Angry: high eye variance, low mouth
(`STRESSED = 2.0`, `ANGRY = 1.0`). -/
def rule4 (m : FacialMetrics) (s : EmotionLabel → ℚ) : EmotionLabel → ℚ :=
  if m.eye_variance > varianceThreshold m ∧ m.mouth_intensity < m.face_mean * (9/10)
  then fun l => if l = Stressed then 2 else if l = Angry then 1 else s l else s

/-- Rule 5 — Calm/Chill/Focused: both variances very low
(`CALM = 1.5`, `CHILL = 1.0`, `FOCUSED = 1.0`). -/
def rule5 (m : FacialMetrics) (s : EmotionLabel → ℚ) : EmotionLabel → ℚ :=
  if m.eye_variance < varianceThreshold m * (4/10)
      ∧ m.mouth_variance < varianceThreshold m * (4/10)
  then fun l => if l = Calm then 3/2 else if l = Chill then 1 else if l = Focused then 1
    else s l else s

/-- Rule 6 — Focused: steady gaze (`FOCUSED += 1.5`). -/
def rule6 (m : FacialMetrics) (s : EmotionLabel → ℚ) : EmotionLabel → ℚ :=
  if m.eye_variance < varianceThreshold m * (5/10) ∧ m.mouth_intensity < m.face_mean
  then fun l => if l = Focused then s Focused + 3/2 else s l else s

/-- Rule 7 — Tired: low eye intensity and variance (`TIRED += 2.0`). -/
def rule7 (m : FacialMetrics) (s : EmotionLabel → ℚ) : EmotionLabel → ℚ :=
  if m.eye_intensity < m.face_mean * (8/10) ∧ m.eye_variance < varianceThreshold m * (6/10)
  then fun l => if l = Tired then s Tired + 2 else s l else s

/-- Rule 8 — Angry: tight lips and pronounced eyes (`ANGRY += 2.0`). -/
def rule8 (m : FacialMetrics) (s : EmotionLabel → ℚ) : EmotionLabel → ℚ :=
  if m.mouth_intensity < m.face_mean * (88/100) ∧ m.eye_intensity > m.face_mean * (105/100)
  then fun l => if l = Angry then s Angry + 2 else s l else s

/-- `FaceAnalyzer._compute_emotion_scores`: the eight rule blocks applied in
source order to the map initialized to `0.0` for every label.  Rules one to
five assign (`=`), rules six to eight accumulate (`+=`), as in the source. -/
def computeEmotionScores (m : FacialMetrics) : EmotionLabel → ℚ :=
  rule8 m (rule7 m (rule6 m (rule5 m (rule4 m (rule3 m (rule2 m (rule1 m (fun _ => 0))))))))

/-- Spec section 4.3, modelled from the spec's rule table: each rule fires
independently and its deltas are *summed* into the labels' scores. -/
def specScoreTable (m : FacialMetrics) (l : EmotionLabel) : ℚ :=
  let vt := varianceThreshold m
  (if m.mouth_intensity > m.face_mean * (102/100) ∧ m.mouth_variance > vt ∧ l = Happy
    then 2 else 0)
  + (if m.mouth_intensity < m.face_mean * (85/100) ∧ m.eye_intensity < m.face_mean * (9/10)
      ∧ (l = Sad ∨ l = Tired) then 3/2 else 0)
  + (if m.eye_variance > vt ∧ m.mouth_variance > vt ∧ l = Nervous then 2 else 0)
  + (if m.eye_variance > vt ∧ m.mouth_intensity < m.face_mean * (9/10)
      ∧ (l = Stressed ∨ l = Angry) then (if l = Stressed then 2 else 1) else 0)
  + (if m.eye_variance < vt * (4/10) ∧ m.mouth_variance < vt * (4/10)
      ∧ (l = Calm ∨ l = Chill ∨ l = Focused) then (if l = Calm then 3/2 else 1) else 0)
  + (if m.eye_variance < vt * (5/10) ∧ m.mouth_intensity < m.face_mean ∧ l = Focused
      then 3/2 else 0)
  + (if m.eye_intensity < m.face_mean * (8/10) ∧ m.eye_variance < vt * (6/10) ∧ l = Tired
      then 2 else 0)
  + (if m.mouth_intensity < m.face_mean * (88/100) ∧ m.eye_intensity > m.face_mean * (105/100)
      ∧ l = Angry then 2 else 0)

/-- `best_score = max(scores.values())`: maximum of the eleven values. -/
def bestScore (s : EmotionLabel → ℚ) : ℚ :=
  (labelOrder.map s).foldl max (s Happy)

/-- `candidates = [k for k, v in scores.items() if v == best_score]`, in dict
(= enum declaration) order. -/
def candidates (s : EmotionLabel → ℚ) : List EmotionLabel :=
  labelOrder.filter (fun l => s l = bestScore s)

/-- The tie-break priority list of `FaceAnalyzer._select_emotion`. -/
def priority : List EmotionLabel :=
  [Stressed, Angry, Nervous, Tired, Sad, Focused, Calm, Chill, Happy]

/-- `FaceAnalyzer._select_emotion`: Normal when no positive score; otherwise
scan the priority list for the first entry among the tied candidates; on the
first hit, a dark face (`face_mean < 50`) overrides with Tired / Sad when
their raw scores reach 1.0; if the scan finds nothing, fall through to
Normal. -/
def selectEmotion (s : EmotionLabel → ℚ) (face_mean : ℚ) : EmotionLabel :=
  if bestScore s ≤ 0 then Normal
  else
    match priority.find? (fun e => (candidates s).contains e) with
    | some emotion =>
        if face_mean < 50 then
          if 1 ≤ s Tired then Tired
          else if 1 ≤ s Sad then Sad
          else emotion
        else emotion
    | none => Normal

theorem rule1_apply (m : FacialMetrics) (s : EmotionLabel → ℚ) (l : EmotionLabel) :
    rule1 m s l = if (m.mouth_intensity > m.face_mean * (102/100)
      ∧ m.mouth_variance > varianceThreshold m) ∧ l = Happy then 2 else s l := by
  unfold rule1; split_ifs <;> simp_all

theorem rule2_apply (m : FacialMetrics) (s : EmotionLabel → ℚ) (l : EmotionLabel) :
    rule2 m s l = if (m.mouth_intensity < m.face_mean * (85/100)
        ∧ m.eye_intensity < m.face_mean * (9/10)) ∧ (l = Sad ∨ l = Tired)
      then 3/2 else s l := by
  unfold rule2; split_ifs <;> (simp_all; try tauto)

theorem rule3_apply (m : FacialMetrics) (s : EmotionLabel → ℚ) (l : EmotionLabel) :
    rule3 m s l = if (m.eye_variance > varianceThreshold m
      ∧ m.mouth_variance > varianceThreshold m) ∧ l = Nervous then 2 else s l := by
  unfold rule3; split_ifs <;> simp_all

theorem rule4_apply (m : FacialMetrics) (s : EmotionLabel → ℚ) (l : EmotionLabel) :
    rule4 m s l = if (m.eye_variance > varianceThreshold m
        ∧ m.mouth_intensity < m.face_mean * (9/10)) ∧ l = Stressed then 2
      else if (m.eye_variance > varianceThreshold m
        ∧ m.mouth_intensity < m.face_mean * (9/10)) ∧ l = Angry then 1 else s l := by
  unfold rule4; split_ifs <;> simp_all

theorem rule5_apply (m : FacialMetrics) (s : EmotionLabel → ℚ) (l : EmotionLabel) :
    rule5 m s l = if (m.eye_variance < varianceThreshold m * (4/10)
        ∧ m.mouth_variance < varianceThreshold m * (4/10)) ∧ l = Calm then 3/2
      else if (m.eye_variance < varianceThreshold m * (4/10)
        ∧ m.mouth_variance < varianceThreshold m * (4/10)) ∧ (l = Chill ∨ l = Focused)
      then 1 else s l := by
  unfold rule5; split_ifs <;> (simp_all; try tauto)

theorem rule6_apply (m : FacialMetrics) (s : EmotionLabel → ℚ) (l : EmotionLabel) :
    rule6 m s l = if (m.eye_variance < varianceThreshold m * (5/10)
      ∧ m.mouth_intensity < m.face_mean) ∧ l = Focused then s Focused + 3/2 else s l := by
  unfold rule6; split_ifs <;> simp_all

theorem rule7_apply (m : FacialMetrics) (s : EmotionLabel → ℚ) (l : EmotionLabel) :
    rule7 m s l = if (m.eye_intensity < m.face_mean * (8/10)
      ∧ m.eye_variance < varianceThreshold m * (6/10)) ∧ l = Tired then s Tired + 2
      else s l := by
  unfold rule7; split_ifs <;> simp_all

theorem rule8_apply (m : FacialMetrics) (s : EmotionLabel → ℚ) (l : EmotionLabel) :
    rule8 m s l = if (m.mouth_intensity < m.face_mean * (88/100)
      ∧ m.eye_intensity > m.face_mean * (105/100)) ∧ l = Angry then s Angry + 2
      else s l := by
  unfold rule8; split_ifs <;> simp_all

/-- C2: for every FacialMetrics, the scorer returns exactly the sum of the
deltas of the section 4.3 rules whose (strict-inequality) condition holds,
with `variance_threshold = face_mean * 0.2`; a label none of whose rules fire
scores 0 (both sides are 0 then). -/
theorem scorer_sums_spec_rule_table (m : FacialMetrics) (l : EmotionLabel) :
    computeEmotionScores m l = specScoreTable m l := by
  cases l <;>
    (simp only [computeEmotionScores, rule1_apply, rule2_apply, rule3_apply, rule4_apply,
      rule5_apply, rule6_apply, rule7_apply, rule8_apply, specScoreTable, reduceCtorEq,
      and_false, and_true, false_or, or_false, if_false, if_true, ite_self, false_and,
      ite_false, ite_true, add_zero, zero_add];
     try split_ifs <;> norm_num)

theorem mem_labelOrder (l : EmotionLabel) : l ∈ labelOrder := by
  cases l <;> simp [labelOrder]

theorem le_foldl_max (xs : List ℚ) (b : ℚ) : b ≤ xs.foldl max b := by
  induction xs generalizing b with
  | nil => exact le_refl b
  | cons x t ih => exact le_trans (le_max_left b x) (ih (max b x))

theorem mem_le_foldl_max (xs : List ℚ) (b : ℚ) : ∀ x ∈ xs, x ≤ xs.foldl max b := by
  induction xs generalizing b with
  | nil => intro x hx; cases hx
  | cons y t ih =>
    intro x hx
    rcases List.mem_cons.mp hx with h | h
    · subst h; exact le_trans (le_max_right b x) (le_foldl_max t (max b x))
    · exact ih (max b y) x h

theorem le_bestScore (s : EmotionLabel → ℚ) (l : EmotionLabel) : s l ≤ bestScore s :=
  mem_le_foldl_max (labelOrder.map s) (s Happy) (s l)
    (List.mem_map_of_mem s (mem_labelOrder l))

theorem find?_congr_on {α : Type} (l : List α) (p q : α → Bool)
    (h : ∀ a ∈ l, p a = q a) : l.find? p = l.find? q := by
  induction l with
  | nil => rfl
  | cons a t ih =>
    rw [List.find?_cons, List.find?_cons, h a (List.mem_cons_self a t),
      ih (fun b hb => h b (List.mem_cons_of_mem a hb))]

theorem contains_candidates (s : EmotionLabel → ℚ) (e : EmotionLabel) :
    (candidates s).contains e = decide (s e = bestScore s) := by
  rcases Decidable.em (s e = bestScore s) with h | h
  · simp [candidates, h, mem_labelOrder]
  · simp [candidates, h]

/-- The priority scan of `_select_emotion` is the first priority entry whose
score attains the maximum (candidate membership for a priority label is
exactly attaining the maximum). -/
theorem selectEmotion_char (s : EmotionLabel → ℚ) (fm : ℚ) (h : 0 < bestScore s) :
    selectEmotion s fm =
      match priority.find? (fun e => decide (s e = bestScore s)) with
      | some emotion =>
          if fm < 50 then
            if 1 ≤ s Tired then Tired
            else if 1 ≤ s Sad then Sad
            else emotion
          else emotion
      | none => Normal := by
  rw [selectEmotion, if_neg (not_le.mpr h),
    find?_congr_on priority _ _ (fun e _ => contains_candidates s e)]

/-- C3: a nonpositive maximum always yields Normal; with a positive maximum,
face_mean at least 50 and a priority label among the tied candidates, the
selector returns the first entry of the fixed priority order attaining the
maximum. -/
theorem select_normal_and_priority_order (s : EmotionLabel → ℚ) (fm : ℚ) :
    (bestScore s ≤ 0 → selectEmotion s fm = EmotionLabel.Normal) ∧
    (0 < bestScore s → 50 ≤ fm → ∀ e,
      priority.find? (fun p => decide (s p = bestScore s)) = some e →
      selectEmotion s fm = e) := by
  constructor
  · intro h; rw [selectEmotion, if_pos h]
  · intro h hfm e hfind
    rw [selectEmotion_char s fm h, hfind]
    dsimp only
    rw [if_neg (not_lt.mpr hfm)]

/-- A Stressed/Happy tie at score 2, everything else 0. -/
def sTie : EmotionLabel → ℚ := fun l =>
  if l = Stressed then 2 else if l = Happy then 2 else 0

theorem sTie_best : bestScore sTie = 2 := by
  simp [bestScore, labelOrder, sTie]

theorem sTie_find :
    priority.find? (fun p => decide (sTie p = bestScore sTie)) = some Stressed := by
  simp only [sTie_best]
  simp [priority, List.find?, sTie]

/-- C3 witness: the Stressed/Happy tie at equal nonzero score yields
Stressed for a bright face. -/
theorem select_normal_and_priority_order_witness :
    selectEmotion sTie 100 = Stressed :=
  (select_normal_and_priority_order sTie 100).2
    (by rw [sTie_best]; norm_num) (by norm_num) Stressed sTie_find

/-- All scores zero except a score of 5 on Normal and 1 on Tired: a ScoreMap
(nonnegative, one entry per label) whose maximum is attained by no priority
label. -/
def sDarkCex : EmotionLabel → ℚ := fun l =>
  if l = EmotionLabel.Normal then 5 else if l = Tired then 1 else 0

theorem sDarkCex_best : bestScore sDarkCex = 5 := by
  simp [bestScore, labelOrder, sDarkCex]

theorem sDarkCex_find :
    priority.find? (fun p => decide (sDarkCex p = bestScore sDarkCex)) = none := by
  simp only [sDarkCex_best]
  simp [priority, List.find?, sDarkCex]

/-- C4 counterexample: a ScoreMap with face_mean = 40 < 50 and raw Tired
score 1 (so the claim demands Tired) on which `_select_emotion` returns
Normal: the dark-face override sits inside the priority scan, which never
fires here because no priority label attains the maximum. -/
theorem select_dark_override_cex :
    selectEmotion sDarkCex 40 = EmotionLabel.Normal
      ∧ (1:ℚ) ≤ sDarkCex Tired ∧ (40:ℚ) < 50
      ∧ EmotionLabel.Normal ≠ Tired := by
  refine ⟨?_, by simp [sDarkCex], by norm_num, by simp⟩
  rw [selectEmotion_char sDarkCex 40 (by rw [sDarkCex_best]; norm_num), sDarkCex_find]

/-- C4 amended: for every ScoreMap and face_mean below 50, *provided some
priority label attains the maximum score* (which holds for every ScoreMap the
scorer produces), a raw Tired score of at least 1.0 forces Tired, else a raw
Sad score of at least 1.0 forces Sad, regardless of which label holds the
maximum. -/
theorem select_dark_override_amended (s : EmotionLabel → ℚ) (fm : ℚ)
    (hfm : fm < 50) (e : EmotionLabel)
    (hfind : priority.find? (fun p => decide (s p = bestScore s)) = some e) :
    (1 ≤ s Tired → selectEmotion s fm = Tired) ∧
    (s Tired < 1 → 1 ≤ s Sad → selectEmotion s fm = Sad) := by
  constructor
  · intro ht
    have hb : 0 < bestScore s := lt_of_lt_of_le one_pos (le_trans ht (le_bestScore s Tired))
    rw [selectEmotion_char s fm hb, hfind]
    dsimp only
    rw [if_pos hfm, if_pos ht]
  · intro htn hs
    have hb : 0 < bestScore s := lt_of_lt_of_le one_pos (le_trans hs (le_bestScore s Sad))
    rw [selectEmotion_char s fm hb, hfind]
    dsimp only
    rw [if_pos hfm, if_neg (not_le.mpr htn), if_pos hs]

/-- Happy uniquely holds the maximum, Tired has raw score 1. -/
def sDarkWit : EmotionLabel → ℚ := fun l =>
  if l = Happy then 3 else if l = Tired then 1 else 0

theorem sDarkWit_best : bestScore sDarkWit = 3 := by
  simp [bestScore, labelOrder, sDarkWit]

theorem sDarkWit_find :
    priority.find? (fun p => decide (sDarkWit p = bestScore sDarkWit)) = some Happy := by
  simp only [sDarkWit_best]
  simp [priority, List.find?, sDarkWit]

/-- C4 amended witness: face_mean 40, Happy the unique maximum, raw Tired
score 1: the selector returns Tired. -/
theorem select_dark_override_amended_witness :
    selectEmotion sDarkWit 40 = Tired :=
  (select_dark_override_amended sDarkWit 40 (by norm_num) Happy sDarkWit_find).1
    (by simp [sDarkWit])

/-- Only Unknown scores positively: the unique tied candidate is Unknown,
which is not a priority label. -/
def sUnkCex : EmotionLabel → ℚ := fun l => if l = Unknown then 1 else 0

theorem sUnkCex_best : bestScore sUnkCex = 1 := by
  simp [bestScore, labelOrder, sUnkCex]

theorem sUnkCex_find :
    priority.find? (fun p => decide (sUnkCex p = bestScore sUnkCex)) = none := by
  simp only [sUnkCex_best]
  simp [priority, List.find?, sUnkCex]

/-- C9 counterexample: a ScoreMap with positive maximum whose single tied
candidate (hence first candidate in enumeration order) is Unknown, not a
priority label; the claim demands Unknown, but `_select_emotion` falls
through its priority loop and returns Normal. -/
theorem select_no_priority_cex :
    selectEmotion sUnkCex 100 = EmotionLabel.Normal
      ∧ candidates sUnkCex = [Unknown]
      ∧ 0 < bestScore sUnkCex
      ∧ EmotionLabel.Normal ≠ Unknown := by
  refine ⟨?_, ?_, by rw [sUnkCex_best]; norm_num, by simp⟩
  · rw [selectEmotion_char sUnkCex 100 (by rw [sUnkCex_best]; norm_num), sUnkCex_find]
  · simp only [candidates, sUnkCex_best]
    simp [labelOrder, sUnkCex]

/-- C9 amended: with a positive maximum attained by no priority label, the
selector returns Normal (the fall-through of the priority loop), not the
first tied candidate. -/
theorem select_no_priority_normal (s : EmotionLabel → ℚ) (fm : ℚ)
    (hb : 0 < bestScore s)
    (hfind : priority.find? (fun p => decide (s p = bestScore s)) = none) :
    selectEmotion s fm = EmotionLabel.Normal := by
  rw [selectEmotion_char s fm hb, hfind]

/-- C9 amended witness: the Unknown-only ScoreMap yields Normal. -/
theorem select_no_priority_normal_witness :
    selectEmotion sUnkCex 100 = EmotionLabel.Normal :=
  select_no_priority_normal sUnkCex 100 (by rw [sUnkCex_best]; norm_num) sUnkCex_find

theorem foldl_append_eq {α β : Type} (l : List α) (g : α → List β) (acc : List β) :
    l.foldl (fun a c => a ++ g c) acc = acc ++ (l.map g).flatten := by
  induction l generalizing acc with
  | nil => simp
  | cons c t ih => simp [ih, List.append_assoc]

theorem allCandidates_eq (det : ℚ × ℕ → List FaceRect) :
    allCandidates det = (detectConfigs.map det).flatten := by
  simpa using foldl_append_eq detectConfigs det []

theorem detect_face_true (det : ℚ × ℕ → List FaceRect) :
    detect_face true det =
      if (allCandidates det).isEmpty then none
      else (allCandidates det).argmax FaceRect.area := rfl

/-- An oracle on which the claimed short-circuit matters: min-neighbors 3
gives a 10x10 face, min-neighbors 4 a 20x10 face. -/
def detOracle0 : ℚ × ℕ → List FaceRect := fun c =>
  if c.2 = 3 then [⟨0, 0, 10, 10⟩]
  else if c.2 = 4 then [⟨0, 0, 20, 10⟩]
  else []

/-- Modelled from the spec: face location that *stops at the first
(scale, neighbor) pair yielding at least one candidate* and picks the
largest-area candidate of that winning pair alone. -/
def detectFaceSpec (loaded : Bool) (det : ℚ × ℕ → List FaceRect) : Option FaceRect :=
  if !loaded then none
  else
    match detectConfigs.find? (fun c => !(det c).isEmpty) with
    | some c => (det c).argmax FaceRect.area
    | none => none

/-- C1 counterexample: on `detOracle0` the winning pair of the claimed
short-circuit is (1.1, 3), whose only (hence largest) candidate is the 10x10
rectangle; the source's `detect_face` has no break, accumulates the
candidates of all nine configurations and returns the 20x10 rectangle
found at the later pair (1.1, 4). -/
theorem detect_face_no_short_circuit_cex :
    detect_face true detOracle0 = some ⟨0, 0, 20, 10⟩
    ∧ detectFaceSpec true detOracle0 = some ⟨0, 0, 10, 10⟩
    ∧ (FaceRect.mk 0 0 20 10) ≠ ⟨0, 0, 10, 10⟩ := by
  refine ⟨?_, ?_, by decide⟩ <;> rfl

/-- C1 amended: `detect_face` tries all nine (scale, min-neighbors)
configurations in the fixed order without stopping early, accumulates every
candidate, and returns the largest-area candidate of the whole accumulated
list, ties broken by first-encountered order (configuration order, then the
detector's own output order); it returns none exactly when all nine
configurations yield no candidate. -/
theorem detect_face_accumulates_all (det : ℚ × ℕ → List FaceRect) :
    (detect_face true det = none ↔ ∀ c ∈ detectConfigs, det c = []) ∧
    (∀ r, detect_face true det = some r →
      r ∈ allCandidates det
      ∧ (∀ x ∈ allCandidates det, x.area ≤ r.area)
      ∧ (∀ x ∈ allCandidates det, r.area ≤ x.area →
          (allCandidates det).indexOf r ≤ (allCandidates det).indexOf x)) := by
  have hempty : (allCandidates det).isEmpty = true ↔ ∀ c ∈ detectConfigs, det c = [] := by
    rw [List.isEmpty_iff, allCandidates_eq, List.flatten_eq_nil_iff]
    constructor
    · intro h c hc; exact h (det c) (List.mem_map_of_mem det hc)
    · intro h x hx
      rcases List.mem_map.mp hx with ⟨c, hc, rfl⟩
      exact h c hc
  constructor
  · rw [detect_face_true]
    constructor
    · intro h
      by_cases he : (allCandidates det).isEmpty
      · exact hempty.mp he
      · rw [if_neg he] at h
        exact absurd (List.argmax_eq_none.mp h)
          (by simpa [List.isEmpty_iff] using he)
    · intro h
      rw [if_pos (hempty.mpr h)]
  · intro r hr
    rw [detect_face_true] at hr
    by_cases he : (allCandidates det).isEmpty
    · rw [if_pos he] at hr; cases hr
    · rw [if_neg he] at hr
      have hmem : r ∈ (allCandidates det).argmax FaceRect.area := hr
      refine ⟨List.argmax_mem hmem, ?_, ?_⟩
      · intro x hx; exact List.le_of_mem_argmax hx hmem
      · intro x hx hle; exact List.index_of_argmax hmem hx hle

/-- C1 amended witness: on `detOracle0` the returned 20x10 rectangle is an
accumulated candidate of maximal area, earliest among the maxima. -/
theorem detect_face_accumulates_all_witness :
    (⟨0, 0, 20, 10⟩ : FaceRect) ∈ allCandidates detOracle0
      ∧ (∀ x ∈ allCandidates detOracle0, x.area ≤ (FaceRect.mk 0 0 20 10).area)
      ∧ (∀ x ∈ allCandidates detOracle0, (FaceRect.mk 0 0 20 10).area ≤ x.area →
          (allCandidates detOracle0).indexOf ⟨0, 0, 20, 10⟩
            ≤ (allCandidates detOracle0).indexOf x) :=
  (detect_face_accumulates_all detOracle0).2 ⟨0, 0, 20, 10⟩ (by rfl)

/-- Element count of a region (`ndarray.size` of a list-of-rows region). -/
def regionSize (g : List (List ℚ)) : ℕ := (g.map List.length).sum

/-- Sum of all pixels of a region. -/
def regionSum (g : List (List ℚ)) : ℚ := (g.map List.sum).sum

/-- `np.mean` over a region (guarded by size checks at every call site where
the region can be empty). -/
def regionMean (g : List (List ℚ)) : ℚ := regionSum g / (regionSize g : ℚ)

def regionSqSum (g : List (List ℚ)) : ℚ :=
  (g.map (fun row => (row.map (fun x => x^2)).sum)).sum

/-- The population variance computed by `np.std` before its square root:
mean of squares minus square of mean. -/
def regionVar (g : List (List ℚ)) : ℚ :=
  regionSqSum g / (regionSize g : ℚ) - (regionMean g)^2

theorem two_mul_sum_le (x : ℚ) (t : List ℚ) :
    2*x*t.sum ≤ (t.length : ℚ) * x^2 + (t.map (fun y => y^2)).sum := by
  induction t with
  | nil => simp
  | cons y u ihu =>
    simp only [List.sum_cons, List.map_cons, List.length_cons]
    push_cast
    nlinarith [two_mul_le_add_sq x y, ihu]

theorem list_sq_sum_le (xs : List ℚ) :
    xs.sum^2 ≤ (xs.length : ℚ) * (xs.map (fun y => y^2)).sum := by
  induction xs with
  | nil => simp
  | cons x t ih =>
    simp only [List.sum_cons, List.map_cons, List.length_cons]
    push_cast
    nlinarith [ih, two_mul_sum_le x t]

theorem regionSum_eq (g : List (List ℚ)) : regionSum g = g.flatten.sum :=
  (List.sum_flatten).symm

theorem regionSize_eq (g : List (List ℚ)) : regionSize g = g.flatten.length := by
  simp [regionSize, List.length_flatten]

theorem regionSqSum_eq (g : List (List ℚ)) :
    regionSqSum g = (g.flatten.map (fun x => x^2)).sum := by
  simp [regionSqSum, List.map_flatten, List.sum_flatten, Function.comp_def]

theorem regionVar_nonneg (g : List (List ℚ)) (h : 0 < regionSize g) :
    0 ≤ regionVar g := by
  have hn : (0:ℚ) < (regionSize g : ℚ) := by exact_mod_cast h
  have hcs : (regionSum g)^2 ≤ (regionSize g : ℚ) * regionSqSum g := by
    rw [regionSum_eq, regionSize_eq, regionSqSum_eq]
    exact list_sq_sum_le g.flatten
  rw [regionVar, regionMean, sub_nonneg, div_pow]
  rw [div_le_div_iff₀ (by positivity) hn]
  calc (regionSum g)^2 * (regionSize g : ℚ)
      ≤ ((regionSize g : ℚ) * regionSqSum g) * (regionSize g : ℚ) := by
        exact mul_le_mul_of_nonneg_right hcs (le_of_lt hn)
    _ = regionSqSum g * ((regionSize g : ℚ))^2 := by ring

theorem regionMean_nonneg (g : List (List ℚ))
    (h : ∀ row ∈ g, ∀ x ∈ row, 0 ≤ x) : 0 ≤ regionMean g := by
  apply div_nonneg
  · rw [regionSum_eq]
    apply List.sum_nonneg
    intro x hx
    rcases List.mem_flatten.mp hx with ⟨row, hrow, hxr⟩
    exact h row hrow x hxr
  · positivity

/-- `int(face_height * c)` for a nonnegative product: truncation = floor.
(The source multiplies by the binary floats 0.2/0.5/0.6/0.8; they are
idealized as exact rationals here.) -/
def pyFloorMul (H : ℕ) (c : ℚ) : ℕ := (⌊(H : ℚ) * c⌋).toNat

/-- `face_roi[eye_y1:eye_y2, :]` with `eye_y1 = int(H*0.2)`,
`eye_y2 = min(int(H*0.5), H)`: rows [eye_y1, eye_y2), full width. -/
def eyeRegion (roi : List (List ℚ)) : List (List ℚ) :=
  (roi.drop (pyFloorMul roi.length (2/10))).take
    (min (pyFloorMul roi.length (5/10)) roi.length - pyFloorMul roi.length (2/10))

/-- `face_roi[mouth_y1:mouth_y2, :]` with `mouth_y1 = int(H*0.6)`,
`mouth_y2 = min(int(H*0.8), H)`: rows [mouth_y1, mouth_y2), full width. -/
def mouthRegion (roi : List (List ℚ)) : List (List ℚ) :=
  (roi.drop (pyFloorMul roi.length (6/10))).take
    (min (pyFloorMul roi.length (8/10)) roi.length - pyFloorMul roi.length (6/10))

/-- `FaceAnalyzer.compute_metrics`: band means and standard deviations plus
whole-region mean, each band statistic guarded by `if region.size > 0 else 0`.
`np.std`, the float square root of the population variance, is modeled by an
abstract function `sq` (any model of a square root is nonnegative). -/
def compute_metrics (sq : ℚ → ℚ) (face_roi : List (List ℚ)) : FacialMetrics where
  eye_intensity :=
    if 0 < regionSize (eyeRegion face_roi) then regionMean (eyeRegion face_roi) else 0
  mouth_intensity :=
    if 0 < regionSize (mouthRegion face_roi) then regionMean (mouthRegion face_roi) else 0
  eye_variance :=
    if 0 < regionSize (eyeRegion face_roi) then sq (regionVar (eyeRegion face_roi)) else 0
  mouth_variance :=
    if 0 < regionSize (mouthRegion face_roi) then sq (regionVar (mouthRegion face_roi)) else 0
  face_mean := regionMean face_roi

theorem mem_of_mem_eyeRegion (roi : List (List ℚ)) (row : List ℚ)
    (h : row ∈ eyeRegion roi) : row ∈ roi :=
  List.mem_of_mem_drop (List.mem_of_mem_take h)

theorem mem_of_mem_mouthRegion (roi : List (List ℚ)) (row : List ℚ)
    (h : row ∈ mouthRegion roi) : row ∈ roi :=
  List.mem_of_mem_drop (List.mem_of_mem_take h)

/-- C7: metric extraction takes the eye band rows
[int(0.2*H), min(int(0.5*H), H)) and the mouth band rows
[int(0.6*H), min(int(0.8*H), H)) at full width; each band statistic is the
band's arithmetic mean and (the square root of) its population variance,
an empty band yields exactly 0 for both (never an error), and all five
returned values are nonnegative (finite by construction in ℚ; the variance
under the square root is itself nonnegative, so the float square root is
never NaN).  Assumes a nonempty crop of positive width with nonnegative
pixels and any nonnegative model `sq` of the square root. -/
theorem compute_metrics_bands_invariants (sq : ℚ → ℚ) (roi : List (List ℚ)) (W : ℕ)
    (hW : ∀ row ∈ roi, row.length = W) (hWpos : 0 < W) (hne : roi ≠ [])
    (hnn : ∀ row ∈ roi, ∀ x ∈ row, 0 ≤ x) (hsq : ∀ x, 0 ≤ sq x) :
    (regionSize (eyeRegion roi) = 0 →
      (compute_metrics sq roi).eye_intensity = 0 ∧ (compute_metrics sq roi).eye_variance = 0)
    ∧ (regionSize (mouthRegion roi) = 0 →
      (compute_metrics sq roi).mouth_intensity = 0
        ∧ (compute_metrics sq roi).mouth_variance = 0)
    ∧ (0 ≤ (compute_metrics sq roi).eye_intensity
        ∧ 0 ≤ (compute_metrics sq roi).mouth_intensity
        ∧ 0 ≤ (compute_metrics sq roi).eye_variance
        ∧ 0 ≤ (compute_metrics sq roi).mouth_variance
        ∧ 0 ≤ (compute_metrics sq roi).face_mean)
    ∧ (0 < regionSize (eyeRegion roi) →
        (compute_metrics sq roi).eye_intensity * (regionSize (eyeRegion roi) : ℚ)
            = regionSum (eyeRegion roi)
        ∧ (compute_metrics sq roi).eye_variance = sq (regionVar (eyeRegion roi))
        ∧ 0 ≤ regionVar (eyeRegion roi))
    ∧ (0 < regionSize (mouthRegion roi) →
        (compute_metrics sq roi).mouth_intensity * (regionSize (mouthRegion roi) : ℚ)
            = regionSum (mouthRegion roi)
        ∧ (compute_metrics sq roi).mouth_variance = sq (regionVar (mouthRegion roi))
        ∧ 0 ≤ regionVar (mouthRegion roi))
    ∧ (0 < regionSize roi
        ∧ (compute_metrics sq roi).face_mean * (regionSize roi : ℚ) = regionSum roi) := by
  have hnnE : ∀ row ∈ eyeRegion roi, ∀ x ∈ row, 0 ≤ x :=
    fun row hr => hnn row (mem_of_mem_eyeRegion roi row hr)
  have hnnM : ∀ row ∈ mouthRegion roi, ∀ x ∈ row, 0 ≤ x :=
    fun row hr => hnn row (mem_of_mem_mouthRegion roi row hr)
  have hsize : 0 < regionSize roi := by
    rcases List.exists_cons_of_ne_nil hne with ⟨r, t, rfl⟩
    have : r.length = W := hW r (List.mem_cons_self r t)
    simp only [regionSize, List.map_cons, List.sum_cons]
    omega
  refine ⟨?_, ?_, ⟨?_, ?_, ?_, ?_, ?_⟩, ?_, ?_, hsize, ?_⟩
  · intro h; simp [compute_metrics, h]
  · intro h; simp [compute_metrics, h]
  · by_cases h : 0 < regionSize (eyeRegion roi)
    · simp only [compute_metrics, if_pos h]
      exact regionMean_nonneg _ hnnE
    · simp [compute_metrics, h]
  · by_cases h : 0 < regionSize (mouthRegion roi)
    · simp only [compute_metrics, if_pos h]
      exact regionMean_nonneg _ hnnM
    · simp [compute_metrics, h]
  · by_cases h : 0 < regionSize (eyeRegion roi)
    · simp only [compute_metrics, if_pos h]
      exact hsq _
    · simp [compute_metrics, h]
  · by_cases h : 0 < regionSize (mouthRegion roi)
    · simp only [compute_metrics, if_pos h]
      exact hsq _
    · simp [compute_metrics, h]
  · exact regionMean_nonneg _ hnn
  · intro h
    refine ⟨?_, by simp [compute_metrics, if_pos h], regionVar_nonneg _ h⟩
    simp only [compute_metrics, if_pos h, regionMean]
    rw [div_mul_cancel₀]
    exact_mod_cast h.ne'
  · intro h
    refine ⟨?_, by simp [compute_metrics, if_pos h], regionVar_nonneg _ h⟩
    simp only [compute_metrics, if_pos h, regionMean]
    rw [div_mul_cancel₀]
    exact_mod_cast h.ne'
  · simp only [compute_metrics, regionMean]
    rw [div_mul_cancel₀]
    exact_mod_cast hsize.ne'

/-- A 2x2 crop: its eye band is the first row, its mouth band is empty. -/
def roiW : List (List ℚ) := [[1, 2], [3, 4]]

/-- A nonnegative model of the square root for the witness. -/
def sqW : ℚ → ℚ := fun x => |x|

/-- C7 witness: the 2x2 crop `roiW` (nonempty eye band, empty mouth band). -/
theorem compute_metrics_bands_invariants_witness :
    (regionSize (eyeRegion roiW) = 0 →
      (compute_metrics sqW roiW).eye_intensity = 0 ∧ (compute_metrics sqW roiW).eye_variance = 0)
    ∧ (regionSize (mouthRegion roiW) = 0 →
      (compute_metrics sqW roiW).mouth_intensity = 0
        ∧ (compute_metrics sqW roiW).mouth_variance = 0)
    ∧ (0 ≤ (compute_metrics sqW roiW).eye_intensity
        ∧ 0 ≤ (compute_metrics sqW roiW).mouth_intensity
        ∧ 0 ≤ (compute_metrics sqW roiW).eye_variance
        ∧ 0 ≤ (compute_metrics sqW roiW).mouth_variance
        ∧ 0 ≤ (compute_metrics sqW roiW).face_mean)
    ∧ (0 < regionSize (eyeRegion roiW) →
        (compute_metrics sqW roiW).eye_intensity * (regionSize (eyeRegion roiW) : ℚ)
            = regionSum (eyeRegion roiW)
        ∧ (compute_metrics sqW roiW).eye_variance = sqW (regionVar (eyeRegion roiW))
        ∧ 0 ≤ regionVar (eyeRegion roiW))
    ∧ (0 < regionSize (mouthRegion roiW) →
        (compute_metrics sqW roiW).mouth_intensity * (regionSize (mouthRegion roiW) : ℚ)
            = regionSum (mouthRegion roiW)
        ∧ (compute_metrics sqW roiW).mouth_variance = sqW (regionVar (mouthRegion roiW))
        ∧ 0 ≤ regionVar (mouthRegion roiW))
    ∧ (0 < regionSize roiW
        ∧ (compute_metrics sqW roiW).face_mean * (regionSize roiW : ℚ) = regionSum roiW) :=
  compute_metrics_bands_invariants sqW roiW 2
    (by intro row hrow; fin_cases hrow <;> rfl)
    (by norm_num)
    (by simp [roiW])
    (by intro row hrow x hx; fin_cases hrow <;> (fin_cases hx <;> norm_num))
    (fun x => abs_nonneg x)

/-- A decoded frame: an opaque payload handle plus its `ndarray.size`
element count (`frame is None` is modeled by `Option Frame`). -/
structure Frame where
  id : ℕ
  size : ℕ
  deriving DecidableEq, Repr

/-- The environment of `FaceAnalyzer.analyze_stress`: whether the cascade
loaded, the cvtColor/equalizeHist preprocessing (an OpenCV call that may
raise, modeled by `Except`), the cascade detection oracle per grayscale
image, the float square-root used inside `np.std`, an exception-injection
flag for an unexpected numpy failure inside the metrics/scoring part of the
`try` block, and the debug-image bytes produced by `_create_debug_image`
(whose own failures yield `none`). -/
structure StressEnv where
  cascadeLoaded : Bool
  preprocess : ℕ → Except Unit (List (List ℚ))
  detect : List (List ℚ) → ℚ × ℕ → List FaceRect
  sqrtFn : ℚ → ℚ
  analysisFault : Bool
  debugImage : Option ℕ

/-- `gray[y:y+h, x:x+w]`: numpy rectangle slicing. -/
def crop (g : List (List ℚ)) (r : FaceRect) : List (List ℚ) :=
  ((g.drop r.y).take r.h).map (fun row => (row.drop r.x).take r.w)

/-- The `try` block of `analyze_stress`: preprocess, detect (returning
Unknown when no face is found), crop, metrics, scores, selection, debug
image.  An `Except.error` is an exception reaching the `except` clause. -/
def analyzeBody (env : StressEnv) (f : Frame) : Except Unit (EmotionLabel × Option ℕ) :=
  match env.preprocess f.id with
  | Except.error e => Except.error e
  | Except.ok gray =>
    match detect_face env.cascadeLoaded (env.detect gray) with
    | none => Except.ok (EmotionLabel.Unknown, none)
    | some rect =>
      if env.analysisFault then Except.error ()
      else
        let m := compute_metrics env.sqrtFn (crop gray rect)
        Except.ok (selectEmotion (computeEmotionScores m) m.face_mean, env.debugImage)

/-- `FaceAnalyzer.analyze_stress`: guard clause
(`frame is None or frame.size == 0 or self.face_cascade is None`) then the
`try` block, every exception resolving to Unknown. -/
def analyze_stress (env : StressEnv) (frame : Option Frame) : EmotionLabel × Option ℕ :=
  match frame with
  | none => (EmotionLabel.Unknown, none)
  | some f =>
    if f.size = 0 ∨ env.cascadeLoaded = false then (EmotionLabel.Unknown, none)
    else
      match analyzeBody env f with
      | Except.ok r => r
      | Except.error _ => (EmotionLabel.Unknown, none)

/-- C6: the classification entry point always produces a defined
EmotionLabel; a null frame, an empty (size-zero) frame, an unloaded
detector, a preprocessing exception, and an unexpected internal failure in
the metrics/scoring stage each resolve to Unknown instead of propagating. -/
theorem analyze_stress_always_labels (env : StressEnv) (frame : Option Frame) :
    (analyze_stress env frame).1 ∈ labelOrder
    ∧ (frame = none → (analyze_stress env frame).1 = EmotionLabel.Unknown)
    ∧ (∀ f, frame = some f → f.size = 0 →
        (analyze_stress env frame).1 = EmotionLabel.Unknown)
    ∧ (env.cascadeLoaded = false → (analyze_stress env frame).1 = EmotionLabel.Unknown)
    ∧ (∀ f, frame = some f → env.preprocess f.id = Except.error () →
        (analyze_stress env frame).1 = EmotionLabel.Unknown)
    ∧ (env.analysisFault = true → (analyze_stress env frame).1 = EmotionLabel.Unknown) := by
  refine ⟨mem_labelOrder _, ?_, ?_, ?_, ?_, ?_⟩
  · rintro rfl; rfl
  · rintro f rfl hf
    simp [analyze_stress, hf]
  · intro hc
    cases frame with
    | none => rfl
    | some f => simp [analyze_stress, hc]
  · rintro f rfl hpre
    by_cases hguard : f.size = 0 ∨ env.cascadeLoaded = false
    · simp [analyze_stress, hguard]
    · simp [analyze_stress, hguard, analyzeBody, hpre]
  · intro hfault
    cases frame with
    | none => rfl
    | some f =>
      by_cases hguard : f.size = 0 ∨ env.cascadeLoaded = false
      · simp [analyze_stress, hguard]
      · simp only [analyze_stress, if_neg hguard]
        cases hpre : env.preprocess f.id with
        | error e => simp [analyzeBody, hpre]
        | ok gray =>
          cases hdet : detect_face env.cascadeLoaded (env.detect gray) with
          | none => simp [analyzeBody, hpre, hdet]
          | some rect => simp [analyzeBody, hpre, hdet, hfault]

/-- A working environment whose detector finds no face in any frame. -/
def envNF : StressEnv :=
  { cascadeLoaded := true
    preprocess := fun _ => Except.ok [[50]]
    detect := fun _ _ => []
    sqrtFn := fun x => x
    analysisFault := false
    debugImage := none }

/-- An environment whose preprocessing raises and whose analysis stage
would fault. -/
def envErr : StressEnv :=
  { cascadeLoaded := true
    preprocess := fun _ => Except.error ()
    detect := fun _ _ => []
    sqrtFn := fun x => x
    analysisFault := true
    debugImage := none }

/-- C6 witness: null frame, empty frame, unloaded detector, preprocessing
exception and injected analysis fault all yield Unknown concretely. -/
theorem analyze_stress_always_labels_witness :
    (analyze_stress envNF none).1 = EmotionLabel.Unknown
    ∧ (analyze_stress envNF (some ⟨0, 0⟩)).1 = EmotionLabel.Unknown
    ∧ (analyze_stress { envNF with cascadeLoaded := false } (some ⟨0, 1⟩)).1
        = EmotionLabel.Unknown
    ∧ (analyze_stress envErr (some ⟨0, 1⟩)).1 = EmotionLabel.Unknown
    ∧ (analyze_stress envErr (some ⟨0, 1⟩)).1 ∈ labelOrder :=
  ⟨(analyze_stress_always_labels envNF none).2.1 rfl,
   (analyze_stress_always_labels envNF (some ⟨0, 0⟩)).2.2.1 ⟨0, 0⟩ rfl rfl,
   (analyze_stress_always_labels { envNF with cascadeLoaded := false } (some ⟨0, 1⟩)).2.2.2.1 rfl,
   (analyze_stress_always_labels envErr (some ⟨0, 1⟩)).2.2.2.2.1 ⟨0, 1⟩ rfl rfl,
   (analyze_stress_always_labels envErr (some ⟨0, 1⟩)).1⟩

/-- C5 amended: when the detector runs on a valid frame (detection was
attempted: nonempty frame, cascade loaded, preprocessing succeeded) and
finds no face, `analyze_stress` returns Unknown — the very same label as
when detection could not be attempted at all; the EmotionLabel enumeration
of the source has no separate NoFaceFound outcome. -/
theorem no_face_returns_unknown (env : StressEnv) (f : Frame) (gray : List (List ℚ))
    (hsize : f.size ≠ 0) (hload : env.cascadeLoaded = true)
    (hpre : env.preprocess f.id = Except.ok gray)
    (hdet : detect_face env.cascadeLoaded (env.detect gray) = none) :
    (analyze_stress env (some f)).1 = EmotionLabel.Unknown := by
  have hguard : ¬ (f.size = 0 ∨ env.cascadeLoaded = false) := by
    simp [hsize, hload]
  simp [analyze_stress, hguard, analyzeBody, hpre, hdet]

/-- C5 counterexample: in `envNF` detection runs (preprocessing succeeds,
the detector is consulted and reports nothing) and the surfaced label is
Unknown — identical to the label surfaced when the cascade never loaded, so
the no-face outcome is not a distinct label. -/
theorem no_face_label_cex :
    envNF.preprocess 0 = Except.ok [[50]]
    ∧ detect_face envNF.cascadeLoaded (envNF.detect [[50]]) = none
    ∧ (analyze_stress envNF (some ⟨0, 1⟩)).1 = EmotionLabel.Unknown
    ∧ (analyze_stress { envNF with cascadeLoaded := false } (some ⟨0, 1⟩)).1
        = EmotionLabel.Unknown := ⟨rfl, rfl, rfl, rfl⟩

/-- C5 amended witness: the concrete no-face run returns Unknown. -/
theorem no_face_returns_unknown_witness :
    (analyze_stress envNF (some ⟨0, 1⟩)).1 = EmotionLabel.Unknown :=
  no_face_returns_unknown envNF ⟨0, 1⟩ [[50]] (by decide) rfl rfl rfl

/-- One step of building the Python dict `stress_counts`: an existing key
keeps its position, a new key is appended (insertion order). -/
def insertKey {α : Type} [DecidableEq α] (acc : List α) (l : α) : List α :=
  if l ∈ acc then acc else acc ++ [l]

/-- `stress_counts.keys()` in dict insertion order after counting the whole
sample list. -/
def dictKeys {α : Type} [DecidableEq α] (ls : List α) : List α :=
  ls.foldl insertKey []

/-- The distinct elements of a list in order of first occurrence. -/
def firstOcc {α : Type} [DecidableEq α] : List α → List α
  | [] => []
  | a :: t => a :: firstOcc (t.filter (fun x => decide (x ≠ a)))
termination_by ls => ls.length
decreasing_by
  simp only [List.length_cons]
  exact Nat.lt_succ_of_le (List.length_filter_le _ t)

theorem mem_firstOcc {α : Type} [DecidableEq α] (ls : List α) (x : α) :
    x ∈ firstOcc ls ↔ x ∈ ls := by
  induction ls using firstOcc.induct with
  | case1 => simp [firstOcc]
  | case2 a t ih =>
    rw [firstOcc]
    simp only [List.mem_cons, ih, List.mem_filter, decide_eq_true_eq]
    constructor
    · rintro (rfl | ⟨h, _⟩)
      · exact Or.inl rfl
      · exact Or.inr h
    · rintro (rfl | h)
      · exact Or.inl rfl
      · rcases Decidable.em (x = a) with rfl | hne
        · exact Or.inl rfl
        · exact Or.inr ⟨h, hne⟩

theorem dictKeys_aux {α : Type} [DecidableEq α] (ls : List α) :
    ∀ acc : List α, ls.foldl insertKey acc
      = acc ++ firstOcc (ls.filter (fun x => decide (x ∉ acc))) := by
  induction ls with
  | nil => intro acc; simp [firstOcc]
  | cons a t ih =>
    intro acc
    simp only [List.foldl_cons]
    rw [ih (insertKey acc a)]
    by_cases ha : a ∈ acc
    · rw [insertKey, if_pos ha, List.filter_cons_of_neg (by simpa using ha)]
    · rw [insertKey, if_neg ha, List.filter_cons_of_pos (by simpa using ha), firstOcc]
      rw [List.append_assoc, List.singleton_append]
      have hfilter : t.filter (fun x => decide (x ∉ acc ++ [a]))
          = (t.filter (fun x => decide (x ∉ acc))).filter (fun x => decide (x ≠ a)) := by
        rw [List.filter_filter]
        apply List.filter_congr
        intro x _
        simp only [List.mem_append, List.mem_singleton]
        by_cases hxa : x = a <;> by_cases hin : x ∈ acc <;> simp [hxa, hin]
      rw [hfilter]

theorem dictKeys_eq_firstOcc {α : Type} [DecidableEq α] (ls : List α) :
    dictKeys ls = firstOcc ls := by
  have h := dictKeys_aux ls []
  simpa [dictKeys] using h

theorem filter_indexOf_le {α : Type} [DecidableEq α] (t : List α) (p : α → Bool) (x y : α)
    (hx : x ∈ t.filter p) (hy : y ∈ t.filter p)
    (h : (t.filter p).indexOf x ≤ (t.filter p).indexOf y) :
    t.indexOf x ≤ t.indexOf y := by
  induction t with
  | nil => simp at hx
  | cons d u ih =>
    by_cases hd : p d
    · rw [List.filter_cons_of_pos hd] at hx hy h
      by_cases hxd : x = d
      · subst hxd
        rw [List.indexOf_cons_self]
        exact Nat.zero_le _
      · by_cases hyd : y = d
        · subst hyd
          rw [List.indexOf_cons_self, List.indexOf_cons_ne _ (Ne.symm hxd)] at h
          exact absurd h (Nat.not_succ_le_zero _)
        · have hx' : x ∈ u.filter p := by
            rcases List.mem_cons.mp hx with h1 | h1
            · exact absurd h1 hxd
            · exact h1
          have hy' : y ∈ u.filter p := by
            rcases List.mem_cons.mp hy with h1 | h1
            · exact absurd h1 hyd
            · exact h1
          rw [List.indexOf_cons_ne _ (Ne.symm hxd), List.indexOf_cons_ne _ (Ne.symm hyd)] at h
          rw [List.indexOf_cons_ne _ (fun hh => hxd hh.symm),
            List.indexOf_cons_ne _ (fun hh => hyd hh.symm)]
          exact Nat.succ_le_succ (ih hx' hy' (Nat.le_of_succ_le_succ h))
    · rw [List.filter_cons_of_neg hd] at hx hy h
      have hxd : x ≠ d := fun hh => hd (hh ▸ List.of_mem_filter hx)
      have hyd : y ≠ d := fun hh => hd (hh ▸ List.of_mem_filter hy)
      rw [List.indexOf_cons_ne _ (Ne.symm hxd), List.indexOf_cons_ne _ (Ne.symm hyd)]
      exact Nat.succ_le_succ (ih hx hy h)

theorem firstOcc_indexOf_le {α : Type} [DecidableEq α] (ls : List α) (x y : α)
    (hx : x ∈ firstOcc ls) (hy : y ∈ firstOcc ls)
    (h : (firstOcc ls).indexOf x ≤ (firstOcc ls).indexOf y) :
    ls.indexOf x ≤ ls.indexOf y := by
  induction ls using firstOcc.induct with
  | case1 => simp [firstOcc] at hx
  | case2 a t ih =>
    rw [firstOcc] at hx hy h
    by_cases hxa : x = a
    · subst hxa
      rw [List.indexOf_cons_self]
      exact Nat.zero_le _
    · by_cases hya : y = a
      · subst hya
        rw [List.indexOf_cons_self, List.indexOf_cons_ne _ (Ne.symm hxa)] at h
        exact absurd h (Nat.not_succ_le_zero _)
      · have hx' : x ∈ firstOcc (t.filter (fun z => decide (z ≠ a))) := by
          rcases List.mem_cons.mp hx with h1 | h1
          · exact absurd h1 hxa
          · exact h1
        have hy' : y ∈ firstOcc (t.filter (fun z => decide (z ≠ a))) := by
          rcases List.mem_cons.mp hy with h1 | h1
          · exact absurd h1 hya
          · exact h1
        rw [List.indexOf_cons_ne _ (Ne.symm hxa), List.indexOf_cons_ne _ (Ne.symm hya)] at h
        have h2 := ih hx' hy' (Nat.le_of_succ_le_succ h)
        have h3 := filter_indexOf_le t (fun z => decide (z ≠ a)) x y
          ((mem_firstOcc _ _).mp hx') ((mem_firstOcc _ _).mp hy') h2
        rw [List.indexOf_cons_ne _ (fun hh => hxa hh.symm),
          List.indexOf_cons_ne _ (fun hh => hya hh.symm)]
        exact Nat.succ_le_succ h3

/-- The stress aggregation of `submit_results` (app.py): build
`stress_counts` by iterating the session's samples, then
`max(stress_counts.keys(), key=lambda k: stress_counts[k])` — Python's
`max` keeps the first key attaining the maximal count, i.e. `List.argmax`
over the keys in insertion order. -/
def summarize (ls : List EmotionLabel) : EmotionLabel :=
  match (dictKeys ls).argmax (fun l => ls.count l) with
  | some m => m
  | none => EmotionLabel.Normal

/-- C8: session summarization returns a most frequent label of the sample
sequence, and among the labels tied at the maximum count the one whose
first occurrence (insertion into the counts dict) is earliest wins. -/
theorem summarize_most_frequent_first_seen (ls : List EmotionLabel) (hne : ls ≠ []) :
    summarize ls ∈ ls
    ∧ (∀ l ∈ ls, ls.count l ≤ ls.count (summarize ls))
    ∧ (∀ l ∈ ls, ls.count l = ls.count (summarize ls) →
        ls.indexOf (summarize ls) ≤ ls.indexOf l) := by
  have hkeys : dictKeys ls = firstOcc ls := dictKeys_eq_firstOcc ls
  have hkeys_ne : dictKeys ls ≠ [] := by
    rw [hkeys]
    cases ls with
    | nil => exact absurd rfl hne
    | cons a t => rw [firstOcc]; exact List.cons_ne_nil _ _
  obtain ⟨m, hm⟩ : ∃ m, (dictKeys ls).argmax (fun l => ls.count l) = some m := by
    cases hmm : (dictKeys ls).argmax (fun l => ls.count l) with
    | none => exact absurd (List.argmax_eq_none.mp hmm) hkeys_ne
    | some m => exact ⟨m, rfl⟩
  have hsum : summarize ls = m := by rw [summarize, hm]
  have hm' : m ∈ (dictKeys ls).argmax (fun l => ls.count l) := by
    rw [hm]; rfl
  have hmmem : m ∈ ls := (mem_firstOcc ls m).mp (hkeys ▸ List.argmax_mem hm')
  rw [hsum]
  refine ⟨hmmem, ?_, ?_⟩
  · intro l hl
    exact List.le_of_mem_argmax (by rw [hkeys]; exact (mem_firstOcc ls l).mpr hl) hm'
  · intro l hl hcnt
    have h1 : (dictKeys ls).indexOf m ≤ (dictKeys ls).indexOf l :=
      List.index_of_argmax hm' (by rw [hkeys]; exact (mem_firstOcc ls l).mpr hl)
        (le_of_eq hcnt.symm)
    rw [hkeys] at h1
    exact firstOcc_indexOf_le ls m l (hkeys ▸ List.argmax_mem hm')
      ((mem_firstOcc ls l).mpr hl) h1

/-- C8 witness: [Happy, Happy, Stressed] summarizes to Happy, and the tie
[Happy, Stressed] summarizes to Happy by the first-seen tiebreak. -/
theorem summarize_most_frequent_first_seen_witness :
    summarize [Happy, Happy, Stressed] = Happy
    ∧ summarize [Happy, Stressed] = Happy
    ∧ (∀ l ∈ [Happy, Stressed],
        List.count l [Happy, Stressed] = List.count (summarize [Happy, Stressed]) [Happy, Stressed] →
        List.indexOf (summarize [Happy, Stressed]) [Happy, Stressed] ≤ List.indexOf l [Happy, Stressed]) :=
  ⟨rfl, rfl, (summarize_most_frequent_first_seen [Happy, Stressed] (by decide)).2.2⟩

/-- `submit_results` (app.py): `avg_stress_level = 'Normal'` unless the
session key is present in `stress_data` with a non-empty (truthy) sample
list, in which case the most-common computation runs. -/
def submitStressLevel (history : Option (List EmotionLabel)) : EmotionLabel :=
  match history with
  | none => EmotionLabel.Normal
  | some ls => if ls.isEmpty then EmotionLabel.Normal else summarize ls

/-- C10: an absent or empty stress history at submission time yields the
recorded and returned stress level Normal (not a failure, not Unknown). -/
theorem submit_results_defaults_normal :
    submitStressLevel none = EmotionLabel.Normal
    ∧ submitStressLevel (some []) = EmotionLabel.Normal := ⟨rfl, rfl⟩
